import Mathlib

/- Verification of the PyWallet expense tracker (src/pywallet).  The file
   shallowly embeds the pure cores of the operations in
   `pywallet/modules/data_manager.py`, `pywallet/modules/analytics.py` and
   `pywallet/ml_models/models.py`, together with the configuration constants of
   `pywallet/config.py`, and proves the behavioural claims about them.

   Modelling conventions:
   * JSON integers are `Int`; monetary aggregates that Python computes in
     floating point over integer data are modelled exactly in `ℚ` (all the
     quantities involved are small integers and exact fractions, so the float
     computations the code performs are exact as well).
   * The JSON store is a `List Record` in file order.  A record produced by
     `add_expense` carries a `username` key; a record produced by
     `import_from_csv` has no such key, which is modelled by
     `username : Option String` (`none` = key absent, matching Python's
     `e.get('username', '')` reading absent keys as `""`).
   * File I/O is abstracted: `load` yields the list, a successful `save` makes
     the returned list the new store, and a failed save leaves the store as it
     was.  Functions that consult the wall clock (`datetime.now()`) take the
     relevant current date / cutoff as an explicit parameter. -/

/-! ### Configuration constants (pywallet/config.py) -/

def DEFAULT_CATEGORIES : List String :=
  ["Food", "Transport", "Health", "Education", "Housing", "Entertainment",
   "Savings", "Shopping", "Travel", "Gifts", "Utilities", "Insurance", "Other"]

def MIN_EXPENSE_AMOUNT : Int := 0

def MAX_EXPENSE_AMOUNT : Int := 1000000

def MAX_NOTE_LENGTH : Nat := 500

def ANOMALY_THRESHOLD_SIGMA : ℚ := 2

def MIN_NOTES_FOR_TRAINING : Nat := 50

def MIN_DATA_POINTS_FOR_ML : Nat := 20

/-! ### Transaction records and dates -/

/-- One JSON transaction object of the expense store (`expenses.json`).
`username := none` models a JSON object with no `username` key (the shape
written by `DataManager.import_from_csv`). -/
structure Record where
  id : Int
  amount : Int
  category : String
  date : String
  note : String
  username : Option String
deriving DecidableEq

/-- Split a character list at every `'-'`, keeping empty groups, exactly as
Python's `str.split('-')` / `datetime.strptime`'s `-` separators see the
string. -/
def splitDash (l : List Char) : List (List Char) :=
  match l with
  | [] => [[]]
  | c :: cs =>
      match splitDash cs with
      | [] => [[]]
      | g :: gs => if c = '-' then [] :: g :: gs else (c :: g) :: gs

/-- `l` is nonempty and consists of decimal digits only. -/
def isDigits (l : List Char) : Bool :=
  decide (l ≠ []) && l.all Char.isDigit

/-- Decimal value of a digit string. -/
def digitsToNat (l : List Char) : Nat :=
  l.foldl (fun acc c => acc * 10 + (c.toNat - 48)) 0

/-- Gregorian leap-year rule, as `datetime` implements it. -/
def isLeapYear (y : Int) : Bool :=
  (y % 4 == 0 && y % 100 != 0) || y % 400 == 0

/-- Number of days of month `m` of year `y` (for months 1..12). -/
def daysInMonth (y m : Int) : Int :=
  if m = 2 then (if isLeapYear y then 29 else 28)
  else if m = 4 ∨ m = 6 ∨ m = 9 ∨ m = 11 then 30
  else 31

/-- `datetime.strptime(s, "%Y-%m-%d")` succeeds: three dash-separated digit
groups (at most 4/2/2 digits), year ≥ 1, month 1..12, day valid for that
month and year. -/
def validDate (s : String) : Bool :=
  match splitDash s.data with
  | [ys, ms, ds] =>
      isDigits ys && decide (ys.length ≤ 4) &&
      isDigits ms && decide (ms.length ≤ 2) &&
      isDigits ds && decide (ds.length ≤ 2) &&
      decide (1 ≤ digitsToNat ys) &&
      decide (1 ≤ digitsToNat ms) && decide (digitsToNat ms ≤ 12) &&
      decide (1 ≤ digitsToNat ds) &&
      decide ((digitsToNat ds : Int) ≤ daysInMonth (digitsToNat ys) (digitsToNat ms))
  | _ => false

/-- A calendar date as the `(year, month, day)` triple of a parsed
`"YYYY-MM-DD"` string (the representation `pd.to_datetime` gives the `date`
column). -/
structure Date where
  year : Int
  month : Int
  day : Int
deriving DecidableEq

/-- Components of a `"YYYY-MM-DD"` string (junk value for unparseable input;
the analytics paths only reach this after `pd.to_datetime` succeeded, i.e. on
valid dates). -/
def parseDate (s : String) : Date :=
  match splitDash s.data with
  | [ys, ms, ds] => ⟨digitsToNat ys, digitsToNat ms, digitsToNat ds⟩
  | _ => ⟨0, 0, 0⟩

/-- Chronological order of datetimes at day granularity: lexicographic on
`(year, month, day)`. -/
def Date.le (a b : Date) : Bool :=
  decide (a.year < b.year) ||
    (decide (a.year = b.year) &&
      (decide (a.month < b.month) ||
        (decide (a.month = b.month) && decide (a.day ≤ b.day))))

/-! ### Record store operations (pywallet/modules/data_manager.py) -/

/-- `max([e.get('id', 0) for e in data], default=0)`: the largest id of the
store, `0` for an empty store. -/
def maxId (data : List Record) : Int :=
  match data.map (fun r => r.id) with
  | [] => 0
  | x :: xs => xs.foldl max x

/-- Pure core of `DataManager.add_expense`: validates amount bounds, category
membership, date format and note length in that order, then appends a record
with id `max(existing ids, default 0) + 1`.  `none` models the validation
short-circuit `(False, message, None)`; `some (newStore, newId)` models the
store contents after a successful save (a failed save leaves the file
untouched, so the stored list is unchanged in that case). -/
def add_expense (amount : Int) (category date note username : String)
    (data : List Record) : Option (List Record × Int) :=
  if MIN_EXPENSE_AMOUNT ≤ amount ∧ amount ≤ MAX_EXPENSE_AMOUNT then
    if category ∈ DEFAULT_CATEGORIES then
      if validDate date then
        if note.length ≤ MAX_NOTE_LENGTH then
          let newId := maxId data + 1
          some (data ++ [⟨newId, amount, category, date, note, some username⟩], newId)
        else none
      else none
    else none
  else none

/-- Failure message of `delete_expense` for an id that is not in the store. -/
def deleteNotFoundMsg (eid : Int) : String :=
  "Expense with ID " ++ toString eid ++ " not found"

/-- Failure message of `delete_expense` when `save_data` fails. -/
def deleteSaveFailMsg : String :=
  "Failed to delete expense"

/-- Pure core of `DataManager.delete_expense`: keeps the records whose id
differs from `eid`; when nothing was removed it fails with the not-found
message, otherwise it saves (`saveOk` abstracts the `save_data` result; a
failed save leaves the file, hence the store, unchanged).  Returns
`(ok, message, store after the call)`. -/
def delete_expense (eid : Int) (saveOk : Bool) (data : List Record) :
    Bool × String × List Record :=
  let filtered := data.filter (fun e => decide (e.id ≠ eid))
  if filtered.length = data.length then
    (false, deleteNotFoundMsg eid, data)
  else if saveOk then
    (true, "Expense " ++ toString eid ++ " deleted successfully", filtered)
  else
    (false, deleteSaveFailMsg, data)

/-! ### Helper lemmas about `maxId` -/

theorem foldl_max_le_self (l : List Int) (a : Int) : a ≤ l.foldl max a := by
  induction l generalizing a with
  | nil => exact le_refl a
  | cons x xs ih => exact le_trans (le_max_left a x) (ih (max a x))

theorem mem_le_foldl_max (l : List Int) (a : Int) :
    ∀ x ∈ l, x ≤ l.foldl max a := by
  induction l generalizing a with
  | nil => intro x hx; cases hx
  | cons y ys ih =>
      intro x hx
      rcases List.mem_cons.mp hx with h | h
      · subst h
        exact le_trans (le_max_right a x) (foldl_max_le_self ys (max a x))
      · exact ih (max a y) x h

theorem id_le_maxId (data : List Record) : ∀ r ∈ data, r.id ≤ maxId data := by
  intro r hr
  unfold maxId
  cases data with
  | nil => cases hr
  | cons s ss =>
      simp only [List.map_cons]
      rcases List.mem_cons.mp hr with h | h
      · subst h; exact foldl_max_le_self _ _
      · exact mem_le_foldl_max _ _ r.id (List.mem_map_of_mem (fun r => r.id) h)

/-- C1: a valid `add_expense` whose save succeeds appends exactly one record;
the new record's id is `max(existing ids, default 0) + 1`, which is strictly
greater than the id of every record of the prior store. -/
theorem add_expense_C1 (amount : Int) (category date note username : String)
    (data newStore : List Record) (newId : Int)
    (h : add_expense amount category date note username data = some (newStore, newId)) :
    newStore = data ++ [⟨newId, amount, category, date, note, some username⟩] ∧
    newStore.length = data.length + 1 ∧
    newId = maxId data + 1 ∧
    ∀ r ∈ data, r.id < newId := by
  unfold add_expense at h
  split at h
  · split at h
    · split at h
      · split at h
        · simp only [Option.some.injEq, Prod.mk.injEq] at h
          obtain ⟨hstore, hid⟩ := h
          subst hid
          subst hstore
          refine ⟨rfl, by simp, rfl, ?_⟩
          intro r hr
          exact lt_of_le_of_lt (id_le_maxId data r hr) (lt_add_one _)
        · cases h
      · cases h
    · cases h
  · cases h

/-- Store used to instantiate the C1 witness. -/
def demoStoreC1 : List Record :=
  [⟨1, 100, "Food", "2024-01-10", "", some "ali"⟩,
   ⟨2, 250, "Transport", "2024-01-11", "bus", some "ali"⟩]

/-- Record appended by the C1 witness call. -/
def demoNewRecC1 : Record :=
  ⟨3, 500, "Food", "2024-01-15", "lunch", some "ali"⟩

theorem add_expense_C1_witness :
    add_expense 500 "Food" "2024-01-15" "lunch" "ali" demoStoreC1 =
      some (demoStoreC1 ++ [demoNewRecC1], 3) ∧
    (demoStoreC1 ++ [demoNewRecC1] = demoStoreC1 ++ [demoNewRecC1] ∧
    (demoStoreC1 ++ [demoNewRecC1]).length = demoStoreC1.length + 1 ∧
    3 = maxId demoStoreC1 + 1 ∧
    ∀ r ∈ demoStoreC1, r.id < 3) := by
  constructor
  · decide
  · exact add_expense_C1 500 "Food" "2024-01-15" "lunch" "ali" demoStoreC1
      (demoStoreC1 ++ [demoNewRecC1]) 3 (by decide)

/-! ### Claim C2: delete_expense -/

theorem deleteNotFoundMsg_ne_saveFail (eid : Int) :
    deleteNotFoundMsg eid ≠ deleteSaveFailMsg := by
  intro h
  have h1 : (deleteNotFoundMsg eid).data.head? = some 'E' := by
    unfold deleteNotFoundMsg
    rw [String.data_append]
    rfl
  rw [h] at h1
  exact absurd h1 (by decide)

/-- C2: on a store with unique ids, deleting an absent id fails with the
not-found message (different from the save-failure message) and leaves the
store unchanged; deleting a present id (with a successful save) removes
exactly the record bearing that id and keeps every other record, in order. -/
theorem delete_expense_C2 (eid : Int) (saveOk : Bool) (data : List Record)
    (huniq : (data.map (fun r => r.id)).Nodup) :
    ((∀ r ∈ data, r.id ≠ eid) →
      delete_expense eid saveOk data = (false, deleteNotFoundMsg eid, data) ∧
      deleteNotFoundMsg eid ≠ deleteSaveFailMsg) ∧
    (∀ r ∈ data, r.id = eid → saveOk = true →
      ∃ l1 l2, data = l1 ++ r :: l2 ∧
        delete_expense eid saveOk data =
          (true, "Expense " ++ toString eid ++ " deleted successfully", l1 ++ l2)) := by
  constructor
  · intro hall
    have hfilter : data.filter (fun e => decide (e.id ≠ eid)) = data :=
      List.filter_eq_self.mpr (fun a ha => by simpa using hall a ha)
    unfold delete_expense
    rw [hfilter]
    simp only [if_pos rfl]
    exact ⟨rfl, deleteNotFoundMsg_ne_saveFail eid⟩
  · intro r hr hid hsave
    obtain ⟨l1, l2, hdec⟩ := List.append_of_mem hr
    refine ⟨l1, l2, hdec, ?_⟩
    have hmid : r.id ∉ l1.map (fun s => s.id) ∧ r.id ∉ l2.map (fun s => s.id) := by
      rw [hdec, List.map_append, List.map_cons] at huniq
      have hnm := (List.nodup_cons.mp (List.nodup_middle.mp huniq)).1
      rw [List.mem_append] at hnm
      exact ⟨fun hc => hnm (Or.inl hc), fun hc => hnm (Or.inr hc)⟩
    have hl1 : l1.filter (fun e => decide (e.id ≠ eid)) = l1 := by
      refine List.filter_eq_self.mpr (fun a ha => ?_)
      have hne : a.id ≠ r.id := fun hc => hmid.1 (hc ▸ List.mem_map_of_mem (fun s => s.id) ha)
      exact decide_eq_true (fun hc => hne (hc.trans hid.symm))
    have hl2 : l2.filter (fun e => decide (e.id ≠ eid)) = l2 := by
      refine List.filter_eq_self.mpr (fun a ha => ?_)
      have hne : a.id ≠ r.id := fun hc => hmid.2 (hc ▸ List.mem_map_of_mem (fun s => s.id) ha)
      exact decide_eq_true (fun hc => hne (hc.trans hid.symm))
    have hpr : decide (r.id ≠ eid) = false := by
      simp [hid]
    have hfilter : data.filter (fun e => decide (e.id ≠ eid)) = l1 ++ l2 := by
      rw [hdec, List.filter_append, List.filter_cons, hpr]
      rw [if_neg Bool.false_ne_true, hl1, hl2]
    have hlen : (l1 ++ l2).length ≠ data.length := by
      rw [hdec]
      simp only [List.length_append, List.length_cons]
      omega
    unfold delete_expense
    rw [hfilter, if_neg hlen, hsave]
    simp

theorem delete_expense_C2_witness :
    (demoStoreC1.map (fun r => r.id)).Nodup ∧
    (∀ r ∈ demoStoreC1, r.id ≠ 7) ∧
    (delete_expense 7 true demoStoreC1 = (false, deleteNotFoundMsg 7, demoStoreC1) ∧
      deleteNotFoundMsg 7 ≠ deleteSaveFailMsg) := by
  refine ⟨by decide, by decide, ?_⟩
  exact (delete_expense_C2 7 true demoStoreC1 (by decide)).1 (by decide)

/-! ### CSV import (DataManager.import_from_csv) and user scoping
     (DataManager.load_dataframe) -/

/-- One data row of an imported CSV, after pandas parsing.  `amount = none`
models a row whose `int(row['amount'])` conversion raises
(`ValueError`/`TypeError`), which the import loop skips; `category`, `date`
and `note` go through `str(...)`, which never fails. -/
structure CsvRow where
  amount : Option Int
  category : String
  date : String
  note : String
deriving DecidableEq

/-- The import loop of `DataManager.import_from_csv`: each convertible row
becomes a record with the next sequential id and NO `username` key; failed
rows are skipped without advancing the id. -/
def importRows (rows : List CsvRow) (nextId : Int) : List Record :=
  match rows with
  | [] => []
  | row :: rest =>
      match row.amount with
      | none => importRows rest nextId
      | some a => ⟨nextId, a, row.category, row.date, row.note, none⟩ ::
          importRows rest (nextId + 1)

/-- Pure core of `DataManager.import_from_csv` on the success path (CSV file
exists, has the required columns, and the final save succeeds): appends the
converted rows to the existing store, ids continuing from
`max(existing ids, default 0) + 1`. -/
def import_from_csv (rows : List CsvRow) (data : List Record) : List Record :=
  data ++ importRows rows (maxId data + 1)

/-- Record-selection core of `DataManager.load_dataframe`: an empty username
keeps every record, a non-empty one keeps the records whose `username` key
(read as `""` when absent) equals it. -/
def load_dataframe (username : String) (data : List Record) : List Record :=
  if username = "" then data
  else data.filter (fun e => e.username.getD "" == username)

/-! ### The record invariants (spec section 3) -/

/-- The per-record invariants of the spec's data model: category in the
configured set, date a valid calendar date, amount within the configured
bounds. -/
def ValidRecord (r : Record) : Prop :=
  r.category ∈ DEFAULT_CATEGORIES ∧
  validDate r.date = true ∧
  MIN_EXPENSE_AMOUNT ≤ r.amount ∧ r.amount ≤ MAX_EXPENSE_AMOUNT

instance (r : Record) : Decidable (ValidRecord r) := by
  unfold ValidRecord; infer_instance

/-- The store invariants: unique ids and every record valid. -/
def ValidStore (data : List Record) : Prop :=
  (data.map (fun r => r.id)).Nodup ∧ ∀ r ∈ data, ValidRecord r

instance (data : List Record) : Decidable (ValidStore data) := by
  unfold ValidStore; infer_instance

/-! ### Claim C10: imported records carry no username -/

theorem importRows_username_none (rows : List CsvRow) (nid : Int) :
    ∀ r ∈ importRows rows nid, r.username = none := by
  induction rows generalizing nid with
  | nil => intro r hr; cases hr
  | cons row rest ih =>
      intro r hr
      unfold importRows at hr
      cases hamt : row.amount with
      | none => rw [hamt] at hr; exact ih nid r hr
      | some a =>
          rw [hamt] at hr
          rcases List.mem_cons.mp hr with h | h
          · subst h; rfl
          · exact ih (nid + 1) r h

/-- C10: records created by CSV import are stored without a `username` key, so
every user-scoped `load_dataframe` view (non-empty username) excludes all of
them, while the unscoped view (empty username) contains the whole store,
imported records included. -/
theorem import_unscoped_C10 (rows : List CsvRow) (data : List Record)
    (username : String) (h : username ≠ "") :
    (∀ r ∈ importRows rows (maxId data + 1), r.username = none) ∧
    load_dataframe username (import_from_csv rows data) = load_dataframe username data ∧
    load_dataframe "" (import_from_csv rows data) = import_from_csv rows data := by
  refine ⟨importRows_username_none rows (maxId data + 1), ?_, ?_⟩
  · unfold load_dataframe import_from_csv
    rw [if_neg h, if_neg h, List.filter_append]
    have himp : (importRows rows (maxId data + 1)).filter
        (fun e => e.username.getD "" == username) = [] := by
      rw [List.filter_eq_nil_iff]
      intro r hr
      rw [importRows_username_none rows (maxId data + 1) r hr]
      simp only [Option.getD_none]
      intro hc
      exact h (eq_of_beq hc).symm
    rw [himp, List.append_nil]
  · unfold load_dataframe
    rw [if_pos rfl]

/-- Rows used by the C10 witness. -/
def demoRowsC10 : List CsvRow :=
  [⟨some 400, "Food", "2024-02-01", "imported lunch"⟩,
   ⟨none, "Travel", "2024-02-02", "bad amount, skipped"⟩,
   ⟨some 60, "Transport", "2024-02-03", ""⟩]

theorem import_unscoped_C10_witness :
    "ali" ≠ "" ∧
    ((∀ r ∈ importRows demoRowsC10 (maxId demoStoreC1 + 1), r.username = none) ∧
    load_dataframe "ali" (import_from_csv demoRowsC10 demoStoreC1) =
      load_dataframe "ali" demoStoreC1 ∧
    load_dataframe "" (import_from_csv demoRowsC10 demoStoreC1) =
      import_from_csv demoRowsC10 demoStoreC1) :=
  ⟨by decide, import_unscoped_C10 demoRowsC10 demoStoreC1 "ali" (by decide)⟩

/-! ### Claim C9: which write operations preserve the invariants -/

/-- Characterization of a successful `add_expense`: the validations all
passed and the result is the old store plus the freshly-numbered record. -/
theorem add_expense_eq_some (amount : Int) (category date note username : String)
    (data newStore : List Record) (newId : Int)
    (h : add_expense amount category date note username data = some (newStore, newId)) :
    newStore = data ++ [⟨maxId data + 1, amount, category, date, note, some username⟩] ∧
    newId = maxId data + 1 ∧
    (MIN_EXPENSE_AMOUNT ≤ amount ∧ amount ≤ MAX_EXPENSE_AMOUNT) ∧
    category ∈ DEFAULT_CATEGORIES ∧ validDate date = true := by
  unfold add_expense at h
  split at h
  · split at h
    · split at h
      · split at h
        · simp only [Option.some.injEq, Prod.mk.injEq] at h
          exact ⟨h.1.symm, h.2.symm, by assumption, by assumption, by assumption⟩
        · cases h
      · cases h
    · cases h
  · cases h

theorem importRows_id_ge (rows : List CsvRow) (nid : Int) :
    ∀ r ∈ importRows rows nid, nid ≤ r.id := by
  induction rows generalizing nid with
  | nil => intro r hr; cases hr
  | cons row rest ih =>
      intro r hr
      unfold importRows at hr
      cases hamt : row.amount with
      | none => rw [hamt] at hr; exact ih nid r hr
      | some a =>
          rw [hamt] at hr
          rcases List.mem_cons.mp hr with h | h
          · subst h; exact le_refl _
          · exact le_trans (by omega) (ih (nid + 1) r h)

theorem importRows_ids_nodup (rows : List CsvRow) (nid : Int) :
    ((importRows rows nid).map (fun r => r.id)).Nodup := by
  induction rows generalizing nid with
  | nil => exact List.nodup_nil
  | cons row rest ih =>
      unfold importRows
      cases hamt : row.amount with
      | none => exact ih nid
      | some a =>
          simp only [List.map_cons]
          rw [List.nodup_cons]
          constructor
          · intro hc
            obtain ⟨r, hr, hid⟩ := List.mem_map.mp hc
            have := importRows_id_ge rest (nid + 1) r hr
            omega
          · exact ih (nid + 1)

/-- C9 (amended): starting from a store satisfying the invariants,
`add_expense` and `delete_expense` preserve all of them, and `import_from_csv`
preserves id uniqueness and keeps the prior records; the appended CSV rows,
however, are not validated (see the counterexample). -/
theorem writes_invariants_C9 (data : List Record) (hv : ValidStore data) :
    (∀ (amount : Int) (category date note username : String)
        (newStore : List Record) (newId : Int),
      add_expense amount category date note username data = some (newStore, newId) →
      ValidStore newStore) ∧
    (∀ (eid : Int) (saveOk : Bool), ValidStore (delete_expense eid saveOk data).2.2) ∧
    (∀ rows : List CsvRow,
      ((import_from_csv rows data).map (fun r => r.id)).Nodup ∧
      ∀ r ∈ data, r ∈ import_from_csv rows data) := by
  obtain ⟨hnodup, hrecs⟩ := hv
  refine ⟨?_, ?_, ?_⟩
  · intro amount category date note username newStore newId h
    obtain ⟨hstore, _, hamt, hcat, hdate⟩ :=
      add_expense_eq_some amount category date note username data newStore newId h
    subst hstore
    constructor
    · rw [List.map_append]
      apply List.Nodup.append hnodup (by simp)
      intro x hx hy
      simp only [List.map_cons, List.map_nil, List.mem_singleton] at hy
      obtain ⟨r, hr, hid⟩ := List.mem_map.mp hx
      have := id_le_maxId data r hr
      omega
    · intro r hr
      rcases List.mem_append.mp hr with h' | h'
      · exact hrecs r h'
      · rw [List.mem_singleton] at h'
        subst h'
        exact ⟨hcat, hdate, hamt.1, hamt.2⟩
  · intro eid saveOk
    simp only [delete_expense]
    split
    · exact ⟨hnodup, hrecs⟩
    · split
      · constructor
        · exact List.Nodup.sublist (List.Sublist.map _ (List.filter_sublist data)) hnodup
        · intro r hr
          exact hrecs r (List.mem_of_mem_filter hr)
      · exact ⟨hnodup, hrecs⟩
  · intro rows
    constructor
    · unfold import_from_csv
      rw [List.map_append]
      apply List.Nodup.append hnodup (importRows_ids_nodup rows (maxId data + 1))
      intro x hx hy
      obtain ⟨r, hr, hid⟩ := List.mem_map.mp hx
      obtain ⟨s, hs, hsid⟩ := List.mem_map.mp hy
      have h1 := id_le_maxId data r hr
      have h2 := importRows_id_ge rows (maxId data + 1) s hs
      omega
    · intro r hr
      exact List.mem_append.mpr (Or.inl hr)

theorem writes_invariants_C9_witness :
    ValidStore demoStoreC1 ∧
    (∀ (eid : Int) (saveOk : Bool), ValidStore (delete_expense eid saveOk demoStoreC1).2.2) := by
  refine ⟨by decide, ?_⟩
  exact (writes_invariants_C9 demoStoreC1 (by decide)).2.1

/-- CSV row whose data violates every record invariant: negative amount,
unknown category, unparseable date.  `import_from_csv` appends it anyway. -/
def badCsvRow : CsvRow :=
  ⟨some (-5), "Pizza", "not-a-date", ""⟩

/-- C9 counterexample: importing a CSV row with a negative amount, a category
outside the configured set and an unparseable date into a valid store yields
a store violating the record invariants — `import_from_csv` validates
nothing about the rows it appends. -/
theorem import_invariants_C9_counterexample :
    ValidStore demoStoreC1 ∧
    import_from_csv [badCsvRow] demoStoreC1 =
      demoStoreC1 ++ [⟨3, -5, "Pizza", "not-a-date", "", none⟩] ∧
    ¬ ValidStore (import_from_csv [badCsvRow] demoStoreC1) := by
  refine ⟨by decide, by decide, ?_⟩
  decide

/-! ### Claim C3: Analytics.budget_alert (pywallet/modules/analytics.py) -/

/-- One element of the `alerts` list of `Analytics.budget_alert` (the
generated human-readable `message` string is not modelled). -/
structure AlertEntry where
  category : String
  status : String
  budget : ℚ
  spending : ℚ
  percentage : ℚ
deriving DecidableEq

/-- The result of `Analytics.budget_alert` (the `month`/`year` echo fields
are not modelled). -/
structure BudgetReport where
  alerts : List AlertEntry
  on_track_count : Nat
  warning_count : Nat
  critical_count : Nat
  total_categories : Nat
deriving DecidableEq

/-- Spend of category `c` in calendar month `(y, m)`:
`current_month[current_month['category'] == category]['amount'].sum()`. -/
def monthSpend (data : List Record) (y m : Int) (c : String) : ℚ :=
  ((((data.filter (fun r =>
      decide ((parseDate r.date).year = y ∧ (parseDate r.date).month = m) &&
      (r.category == c))).map (fun r => r.amount)).sum : Int) : ℚ)

/-- The code's percentage: `spending / budget * 100 if budget > 0 else 0`. -/
def pctOf (spending budget : ℚ) : ℚ :=
  if 0 < budget then spending / budget * 100 else 0

/-- The `for category, budget in custom_budgets.items()` loop of
`budget_alert`: returns `(alerts, on_track, warning, critical)` accumulated
in iteration order (the loop locals `spending` and `percentage` are written
inline). -/
def processBudgets (data : List Record) (y m : Int) :
    List (String × ℚ) → List AlertEntry × Nat × Nat × Nat
  | [] => ([], 0, 0, 0)
  | cb :: rest =>
      if 100 ≤ pctOf (monthSpend data y m cb.1) cb.2 then
        (⟨cb.1, "critical", cb.2, monthSpend data y m cb.1,
            pctOf (monthSpend data y m cb.1) cb.2⟩ :: (processBudgets data y m rest).1,
         (processBudgets data y m rest).2.1,
         (processBudgets data y m rest).2.2.1,
         (processBudgets data y m rest).2.2.2 + 1)
      else if 80 ≤ pctOf (monthSpend data y m cb.1) cb.2 then
        (⟨cb.1, "warning", cb.2, monthSpend data y m cb.1,
            pctOf (monthSpend data y m cb.1) cb.2⟩ :: (processBudgets data y m rest).1,
         (processBudgets data y m rest).2.1,
         (processBudgets data y m rest).2.2.1 + 1,
         (processBudgets data y m rest).2.2.2)
      else
        ((processBudgets data y m rest).1,
         (processBudgets data y m rest).2.1 + 1,
         (processBudgets data y m rest).2.2.1,
         (processBudgets data y m rest).2.2.2)

/-- `Analytics.budget_alert` with the current month `(y, m)` passed
explicitly (the code reads it from `datetime.now()`): empty store returns the
all-on-track report; otherwise the per-category loop runs. -/
def budget_alert (budgets : List (String × ℚ)) (y m : Int)
    (data : List Record) : BudgetReport :=
  if data.isEmpty then
    ⟨[], budgets.length, 0, 0, budgets.length⟩
  else
    ⟨(processBudgets data y m budgets).1,
     (processBudgets data y m budgets).2.1,
     (processBudgets data y m budgets).2.2.1,
     (processBudgets data y m budgets).2.2.2,
     budgets.length⟩

/-- The percentage as the CLAIM states it: `spend / budget * 100`, `0` when
the budget is `0` (spec side, to be compared with the code's `pctOf`). -/
def specPctVal (s b : ℚ) : ℚ :=
  if b = 0 then 0 else s / b * 100

/-- Claim-side percentage of one configured `(category, budget)` pair. -/
def specPct (data : List Record) (y m : Int) (cb : String × ℚ) : ℚ :=
  specPctVal (monthSpend data y m cb.1) cb.2

/-- Claim-side classification of one configured pair: `critical` at ≥ 100,
`warning` at 80 ≤ · < 100, nothing (on track) below 80. -/
def specAlertEntry (data : List Record) (y m : Int) (cb : String × ℚ) :
    Option AlertEntry :=
  if 100 ≤ specPct data y m cb then
    some ⟨cb.1, "critical", cb.2, monthSpend data y m cb.1, specPct data y m cb⟩
  else if 80 ≤ specPct data y m cb then
    some ⟨cb.1, "warning", cb.2, monthSpend data y m cb.1, specPct data y m cb⟩
  else none

theorem pct_bridge (s b : ℚ) (hs : 0 ≤ s) :
    (100 ≤ pctOf s b ↔ 100 ≤ specPctVal s b) ∧
    (80 ≤ pctOf s b ↔ 80 ≤ specPctVal s b) ∧
    (80 ≤ pctOf s b → pctOf s b = specPctVal s b) := by
  unfold pctOf specPctVal
  rcases lt_trichotomy b 0 with hb | hb | hb
  · rw [if_neg (by linarith), if_neg (by linarith)]
    have hq : s / b * 100 ≤ 0 := by
      have hd : s / b ≤ 0 := div_nonpos_iff.mpr (Or.inl ⟨hs, le_of_lt hb⟩)
      linarith
    exact ⟨⟨fun h => by linarith, fun h => by linarith⟩,
           ⟨fun h => by linarith, fun h => by linarith⟩,
           fun h => by linarith⟩
  · subst hb
    rw [if_neg (lt_irrefl 0), if_pos rfl]
    exact ⟨Iff.rfl, Iff.rfl, fun _ => rfl⟩
  · rw [if_pos hb, if_neg (ne_of_gt hb)]
    exact ⟨Iff.rfl, Iff.rfl, fun _ => rfl⟩

theorem monthSpend_nonneg (data : List Record) (y m : Int) (c : String)
    (hamt : ∀ r ∈ data, 0 ≤ r.amount) : 0 ≤ monthSpend data y m c := by
  unfold monthSpend
  have h : (0 : Int) ≤ ((data.filter (fun r =>
      decide ((parseDate r.date).year = y ∧ (parseDate r.date).month = m) &&
      (r.category == c))).map (fun r => r.amount)).sum := by
    apply List.sum_nonneg
    intro x hx
    obtain ⟨r, hr, hxr⟩ := List.mem_map.mp hx
    exact hxr ▸ hamt r (List.mem_of_mem_filter hr)
  exact_mod_cast h

theorem processBudgets_characterization (data : List Record) (y m : Int)
    (hamt : ∀ r ∈ data, 0 ≤ r.amount) (budgets : List (String × ℚ)) :
    processBudgets data y m budgets =
      (budgets.filterMap (specAlertEntry data y m),
       budgets.countP (fun cb => decide (specPct data y m cb < 80)),
       budgets.countP (fun cb =>
         decide (80 ≤ specPct data y m cb ∧ specPct data y m cb < 100)),
       budgets.countP (fun cb => decide (100 ≤ specPct data y m cb))) := by
  induction budgets with
  | nil => rfl
  | cons cb rest ih =>
      have hs := monthSpend_nonneg data y m cb.1 hamt
      obtain ⟨hb1, hb2, hb3⟩ := pct_bridge (monthSpend data y m cb.1) cb.2 hs
      by_cases hc : 100 ≤ pctOf (monthSpend data y m cb.1) cb.2
      · have hqv : 100 ≤ specPct data y m cb := hb1.mp hc
        have heq : pctOf (monthSpend data y m cb.1) cb.2 = specPct data y m cb :=
          hb3 (le_trans (by norm_num) hc)
        have e1 : specAlertEntry data y m cb =
            some ⟨cb.1, "critical", cb.2, monthSpend data y m cb.1, specPct data y m cb⟩ := by
          unfold specAlertEntry
          rw [if_pos hqv]
        have d1 : decide (specPct data y m cb < 80) = false :=
          decide_eq_false (by push_neg; linarith)
        have d2 : decide (80 ≤ specPct data y m cb ∧ specPct data y m cb < 100) = false :=
          decide_eq_false (fun h => absurd hqv (by push_neg; exact h.2.trans_le (by norm_num)))
        have d3 : decide (100 ≤ specPct data y m cb) = true := decide_eq_true hqv
        rw [processBudgets, if_pos hc, ih]
        simp only [List.filterMap_cons, List.countP_cons, e1, d1, d2, d3, heq]
        simp
      · by_cases hw : 80 ≤ pctOf (monthSpend data y m cb.1) cb.2
        · have hqv : 80 ≤ specPct data y m cb := hb2.mp hw
          have hq2 : ¬ 100 ≤ specPct data y m cb := fun h => hc (hb1.mpr h)
          have heq : pctOf (monthSpend data y m cb.1) cb.2 = specPct data y m cb := hb3 hw
          have e1 : specAlertEntry data y m cb =
              some ⟨cb.1, "warning", cb.2, monthSpend data y m cb.1, specPct data y m cb⟩ := by
            unfold specAlertEntry
            rw [if_neg hq2, if_pos hqv]
          have d1 : decide (specPct data y m cb < 80) = false :=
            decide_eq_false (by push_neg; linarith)
          have d2 : decide (80 ≤ specPct data y m cb ∧ specPct data y m cb < 100) = true :=
            decide_eq_true ⟨hqv, by push_neg at hq2; linarith⟩
          have d3 : decide (100 ≤ specPct data y m cb) = false := decide_eq_false hq2
          rw [processBudgets, if_neg hc, if_pos hw, ih]
          simp only [List.filterMap_cons, List.countP_cons, e1, d1, d2, d3, heq]
          simp
        · have hqv : ¬ 80 ≤ specPct data y m cb := fun h => hw (hb2.mpr h)
          have hq2 : ¬ 100 ≤ specPct data y m cb := fun h => hqv (by linarith)
          have e1 : specAlertEntry data y m cb = none := by
            unfold specAlertEntry
            rw [if_neg hq2, if_neg hqv]
          have d1 : decide (specPct data y m cb < 80) = true :=
            decide_eq_true (by push_neg at hqv; linarith)
          have d2 : decide (80 ≤ specPct data y m cb ∧ specPct data y m cb < 100) = false :=
            decide_eq_false (fun h => hqv h.1)
          have d3 : decide (100 ≤ specPct data y m cb) = false := decide_eq_false hq2
          rw [processBudgets, if_neg hc, if_neg hw, ih]
          simp only [List.filterMap_cons, List.countP_cons, e1, d1, d2, d3]
          simp

theorem specPct_empty (y m : Int) (cb : String × ℚ) : specPct [] y m cb = 0 := by
  unfold specPct specPctVal monthSpend
  simp

/-- Store of the C3 scenario: one Food expense of 850 in March 2024. -/
def demoStoreC3 : List Record :=
  [⟨1, 850, "Food", "2024-03-10", "", some "ali"⟩]

theorem budget_alert_scenario :
    budget_alert [("Food", (1000 : ℚ))] 2024 3 demoStoreC3 =
      ⟨[⟨"Food", "warning", 1000, 850, 85⟩], 0, 1, 0, 1⟩ := by
  have hms : monthSpend demoStoreC3 2024 3 "Food" = 850 := by
    unfold monthSpend
    have h2 : ((demoStoreC3.filter (fun r =>
        decide ((parseDate r.date).year = 2024 ∧ (parseDate r.date).month = 3) &&
        (r.category == "Food"))).map (fun r => r.amount)).sum = (850 : Int) := by decide
    rw [h2]
    norm_num
  have hpct : pctOf (monthSpend demoStoreC3 2024 3 "Food") 1000 = 85 := by
    rw [hms]
    unfold pctOf
    rw [if_pos (by norm_num)]
    norm_num
  unfold budget_alert
  rw [if_neg (by decide)]
  simp only [processBudgets]
  rw [hpct, hms]
  rw [if_neg (by norm_num), if_pos (by norm_num)]
  rfl

/-- C3: for every budget mapping, `budget_alert` reports per configured
category the percentage `spend/budget*100` (0 when the budget is 0) and
classifies ≥ 100 as critical, 80 ≤ · < 100 as warning, the rest as on
track; an empty store yields zero warnings/criticals with `on_track_count =
total_categories`; and the `{"Food": 1000}` / 850-spend scenario yields
exactly one warning entry with percentage 85. -/
theorem budget_alert_C3 (budgets : List (String × ℚ)) (y m : Int)
    (data : List Record) (hamt : ∀ r ∈ data, 0 ≤ r.amount) :
    ((budget_alert budgets y m data).alerts =
        budgets.filterMap (specAlertEntry data y m) ∧
      (budget_alert budgets y m data).on_track_count =
        budgets.countP (fun cb => decide (specPct data y m cb < 80)) ∧
      (budget_alert budgets y m data).warning_count =
        budgets.countP (fun cb =>
          decide (80 ≤ specPct data y m cb ∧ specPct data y m cb < 100)) ∧
      (budget_alert budgets y m data).critical_count =
        budgets.countP (fun cb => decide (100 ≤ specPct data y m cb)) ∧
      (budget_alert budgets y m data).total_categories = budgets.length) ∧
    (data = [] →
      (budget_alert budgets y m data).warning_count = 0 ∧
      (budget_alert budgets y m data).critical_count = 0 ∧
      (budget_alert budgets y m data).on_track_count =
        (budget_alert budgets y m data).total_categories) ∧
    budget_alert [("Food", (1000 : ℚ))] 2024 3 demoStoreC3 =
      ⟨[⟨"Food", "warning", 1000, 850, 85⟩], 0, 1, 0, 1⟩ := by
  refine ⟨?_, ?_, budget_alert_scenario⟩
  · by_cases hdata : data.isEmpty
    · have hnil : data = [] := List.isEmpty_iff.mp hdata
      subst hnil
      have hba : budget_alert budgets y m [] =
          ⟨[], budgets.length, 0, 0, budgets.length⟩ := rfl
      rw [hba]
      refine ⟨?_, ?_, ?_, ?_, rfl⟩
      · symm
        rw [List.filterMap_eq_nil_iff]
        intro cb hcb
        unfold specAlertEntry
        rw [specPct_empty y m cb]
        rw [if_neg (by norm_num), if_neg (by norm_num)]
      · symm
        rw [List.countP_eq_length]
        intro cb hcb
        exact decide_eq_true (by rw [specPct_empty y m cb]; norm_num)
      · symm
        rw [List.countP_eq_zero]
        intro cb hcb
        rw [specPct_empty y m cb]
        norm_num
      · symm
        rw [List.countP_eq_zero]
        intro cb hcb
        rw [specPct_empty y m cb]
        norm_num
    · unfold budget_alert
      rw [if_neg hdata, processBudgets_characterization data y m hamt budgets]
      exact ⟨rfl, rfl, rfl, rfl, rfl⟩
  · intro hnil
    subst hnil
    have hba : budget_alert budgets y m [] =
        ⟨[], budgets.length, 0, 0, budgets.length⟩ := rfl
    rw [hba]
    exact ⟨rfl, rfl, rfl⟩

theorem budget_alert_C3_witness :
    (∀ r ∈ demoStoreC3, 0 ≤ r.amount) ∧
    budget_alert [("Food", (1000 : ℚ))] 2024 3 demoStoreC3 =
      ⟨[⟨"Food", "warning", 1000, 850, 85⟩], 0, 1, 0, 1⟩ :=
  ⟨by decide, (budget_alert_C3 [("Food", (1000 : ℚ))] 2024 3 demoStoreC3 (by decide)).2.2⟩

/-! ### Claim C8: monthly_summary vs category_summary agree on total spend -/

/-- Records of calendar month `(y, m)`:
`df[(df['date'].dt.year == year) & (df['date'].dt.month == month)]`. -/
def monthRecords (data : List Record) (y m : Int) : List Record :=
  data.filter (fun r =>
    decide ((parseDate r.date).year = y ∧ (parseDate r.date).month = m))

/-- Distinct categories of a record list, i.e. the keys of pandas
`groupby('category')` (pandas yields them sorted; only the key SET matters to
the claims, so first-occurrence order is used here). -/
def groupKeys (l : List Record) : List String :=
  (l.map (fun r => r.category)).dedup

/-- Total amount of one category inside a record list. -/
def catTotal (l : List Record) (c : String) : Int :=
  ((l.filter (fun r => r.category == c)).map (fun r => r.amount)).sum

/-- Modelled fields of `Analytics.monthly_summary` (the `month_name` echo and
the sparse `daily_breakdown` are not needed by any claim; for an empty store
the early return produces exactly these values as well). -/
structure MonthlySummary where
  total : Int
  by_category : List (String × Int)
  transaction_count : Nat

/-- `Analytics.monthly_summary` for an explicit year/month. -/
def monthly_summary (y m : Int) (data : List Record) : MonthlySummary :=
  ⟨((monthRecords data y m).map (fun r => r.amount)).sum,
   (groupKeys (monthRecords data y m)).map
     (fun c => (c, catTotal (monthRecords data y m) c)),
   (monthRecords data y m).length⟩

/-- Per-category statistics of `Analytics.category_summary`. -/
structure CatStats where
  total : Int
  count : Nat
  percentage : ℚ
  average : ℚ

/-- Records within the inclusive date range `[startD, endD]`
(`df[df['date'] >= start_date]` then `df[df['date'] <= end_date]`; datetime
comparison is lexicographic on year, month, day). -/
def rangeRecords (data : List Record) (startD endD : Date) : List Record :=
  data.filter (fun r =>
    Date.le startD (parseDate r.date) && Date.le (parseDate r.date) endD)

/-- `Analytics.category_summary` with both range ends supplied (the source
makes each bound optional; the claim uses a fully bounded range). -/
def category_summary (startD endD : Date) (data : List Record) :
    List (String × CatStats) :=
  if data.isEmpty then []
  else
    if (rangeRecords data startD endD).isEmpty then []
    else
      (groupKeys (rangeRecords data startD endD)).map (fun c =>
        (c, ⟨catTotal (rangeRecords data startD endD) c,
             ((rangeRecords data startD endD).filter
               (fun r => r.category == c)).length,
             (if 0 < ((rangeRecords data startD endD).map
                  (fun r => r.amount)).sum then
               ((catTotal (rangeRecords data startD endD) c : ℚ) /
                 (((rangeRecords data startD endD).map
                    (fun r => r.amount)).sum : ℚ)) * 100
              else 0),
             (catTotal (rangeRecords data startD endD) c : ℚ) /
               ((((rangeRecords data startD endD).filter
                  (fun r => r.category == c)).length : Nat) : ℚ)⟩))

theorem parseDate_bounds (s : String) (h : validDate s = true) :
    1 ≤ (parseDate s).month ∧ (parseDate s).month ≤ 12 ∧
    1 ≤ (parseDate s).day ∧
    (parseDate s).day ≤ daysInMonth (parseDate s).year (parseDate s).month := by
  unfold validDate at h
  unfold parseDate
  split at h
  next ys ms ds heq =>
    simp only [Bool.and_eq_true, decide_eq_true_eq] at h
    refine ⟨?_, ?_, ?_, ?_⟩ <;> dsimp only <;> omega
  next =>
    exact absurd h (by simp)

theorem month_range_iff (y m : Int) (d : Date)
    (hd : 1 ≤ d.day) (hdm : d.day ≤ daysInMonth d.year d.month) :
    ((Date.le ⟨y, m, 1⟩ d && Date.le d ⟨y, m, daysInMonth y m⟩) = true) ↔
      (d.year = y ∧ d.month = m) := by
  unfold Date.le
  simp only [Bool.and_eq_true, Bool.or_eq_true, decide_eq_true_eq]
  constructor
  · rintro ⟨h1, h2⟩
    omega
  · rintro ⟨hy, hm⟩
    subst hy
    subst hm
    exact ⟨Or.inr ⟨rfl, Or.inr ⟨rfl, hd⟩⟩, Or.inr ⟨rfl, Or.inr ⟨rfl, hdm⟩⟩⟩

/-- On valid dates, the one-calendar-month range filter of
`category_summary` selects exactly the records `monthly_summary` selects. -/
theorem rangeRecords_month (data : List Record) (y m : Int)
    (hdates : ∀ r ∈ data, validDate r.date = true) :
    rangeRecords data ⟨y, m, 1⟩ ⟨y, m, daysInMonth y m⟩ = monthRecords data y m := by
  unfold rangeRecords monthRecords
  apply List.filter_congr
  intro r hr
  obtain ⟨_, _, hd, hdm⟩ := parseDate_bounds r.date (hdates r hr)
  cases hb : (Date.le ⟨y, m, 1⟩ (parseDate r.date) &&
      Date.le (parseDate r.date) ⟨y, m, daysInMonth y m⟩) with
  | false =>
      symm
      rw [decide_eq_false_iff_not]
      intro hc
      rw [(month_range_iff y m (parseDate r.date) hd hdm).mpr hc] at hb
      cases hb
  | true =>
      symm
      rw [decide_eq_true_eq]
      exact (month_range_iff y m (parseDate r.date) hd hdm).mp hb

theorem sum_filter_split (p : Record → Bool) (l : List Record) :
    ((l.filter p).map (fun r => r.amount)).sum +
      ((l.filter (fun r => !(p r))).map (fun r => r.amount)).sum =
    (l.map (fun r => r.amount)).sum := by
  induction l with
  | nil => rfl
  | cons r rs ih =>
      cases hp : p r
      · simp [List.filter_cons, hp]
        omega
      · simp [List.filter_cons, hp]
        omega

theorem sum_over_keys (keys : List String) (l : List Record)
    (hnd : keys.Nodup) (hcov : ∀ r ∈ l, r.category ∈ keys) :
    (keys.map (fun c => catTotal l c)).sum = (l.map (fun r => r.amount)).sum := by
  induction keys generalizing l with
  | nil =>
      cases l with
      | nil => rfl
      | cons r rs => exact absurd (hcov r (List.mem_cons_self r rs)) (List.not_mem_nil r.category)
  | cons c keys ih =>
      have hnd' := (List.nodup_cons.mp hnd).2
      have hcne := (List.nodup_cons.mp hnd).1
      have hrest : ∀ c' ∈ keys, catTotal l c' =
          catTotal (l.filter (fun r => !(r.category == c))) c' := by
        intro c' hc'
        have hcc : c' ≠ c := fun hcc => hcne (hcc ▸ hc')
        have hfeq : (l.filter (fun r => !(r.category == c))).filter
            (fun r => r.category == c') = l.filter (fun r => r.category == c') := by
          rw [List.filter_filter]
          apply List.filter_congr
          intro r hr
          cases hrc : (r.category == c') with
          | false => simp [hrc]
          | true =>
              have hr' : r.category = c' := eq_of_beq hrc
              have hne : (r.category == c) = false :=
                beq_eq_false_iff_ne.mpr (fun h2 => hcc (hr'.symm.trans h2))
              simp [hrc, hne]
        unfold catTotal
        rw [hfeq]
      have hcov' : ∀ r ∈ l.filter (fun r => !(r.category == c)), r.category ∈ keys := by
        intro r hr
        have hm := hcov r (List.mem_of_mem_filter hr)
        have hprop := List.of_mem_filter hr
        rcases List.mem_cons.mp hm with h | h
        · rw [h] at hprop
          simp at hprop
        · exact h
      have hmap : (keys.map (fun c' => catTotal l c')).sum =
          (keys.map (fun c' => catTotal (l.filter (fun r => !(r.category == c))) c')).sum := by
        congr 1
        exact List.map_congr_left hrest
      rw [List.map_cons, List.sum_cons, hmap, ih (l.filter (fun r => !(r.category == c))) hnd' hcov']
      exact sum_filter_split (fun r => r.category == c) l

/-- C8: over a range covering exactly one calendar month, the sum of
`category_summary`'s per-category totals equals `monthly_summary`'s overall
total. -/
theorem summaries_agree_C8 (y m : Int) (data : List Record) (hne : data ≠ [])
    (hdates : ∀ r ∈ data, validDate r.date = true) :
    ((category_summary ⟨y, m, 1⟩ ⟨y, m, daysInMonth y m⟩ data).map
        (fun p => p.2.total)).sum = (monthly_summary y m data).total := by
  unfold category_summary monthly_summary
  rw [if_neg (by rwa [Ne, ← List.isEmpty_iff] at hne)]
  rw [rangeRecords_month data y m hdates]
  by_cases hdf : (monthRecords data y m).isEmpty
  · rw [if_pos hdf]
    rw [List.isEmpty_iff.mp hdf]
    rfl
  · rw [if_neg hdf]
    rw [List.map_map]
    have : ((fun p : String × CatStats => p.2.total) ∘ (fun c =>
        (c, ⟨catTotal (monthRecords data y m) c,
             ((monthRecords data y m).filter (fun r => r.category == c)).length,
             (if 0 < ((monthRecords data y m).map (fun r => r.amount)).sum then
               ((catTotal (monthRecords data y m) c : ℚ) /
                 (((monthRecords data y m).map (fun r => r.amount)).sum : ℚ)) * 100
              else 0),
             (catTotal (monthRecords data y m) c : ℚ) /
               (((((monthRecords data y m).filter
                  (fun r => r.category == c)).length : Nat)) : ℚ)⟩))) =
        (fun c => catTotal (monthRecords data y m) c) := rfl
    rw [this]
    apply sum_over_keys
    · exact List.nodup_dedup _
    · intro r hr
      exact List.mem_dedup.mpr (List.mem_map_of_mem (fun r => r.category) hr)

/-- Store used by the C8 witness. -/
def demoStoreC8 : List Record :=
  [⟨1, 500, "Food", "2024-01-15", "lunch", some "ali"⟩,
   ⟨2, 300, "Food", "2024-01-20", "", some "ali"⟩,
   ⟨3, 200, "Transport", "2024-01-02", "", some "bob"⟩,
   ⟨4, 999, "Health", "2024-02-01", "outside the month", some "ali"⟩]

theorem summaries_agree_C8_witness :
    demoStoreC8 ≠ [] ∧
    (∀ r ∈ demoStoreC8, validDate r.date = true) ∧
    ((category_summary ⟨2024, 1, 1⟩ ⟨2024, 1, daysInMonth 2024 1⟩ demoStoreC8).map
        (fun p => p.2.total)).sum = (monthly_summary 2024 1 demoStoreC8).total :=
  ⟨by decide, by decide, summaries_agree_C8 2024 1 demoStoreC8 (by decide) (by decide)⟩

/-! ### Claim C4: Analytics.detect_trends -/

/-- Absolute calendar-month index of a date (`year * 12 + (month - 1)`), the
bucket key of pandas `resample('MS')`. -/
def monthIdx (d : Date) : Int :=
  d.year * 12 + (d.month - 1)

/-- `recent_data = df[df['date'] >= cutoff_date]` with the cutoff
(`datetime.now() - timedelta(days=months*30)`) passed as an explicit date. -/
def recentRecords (cutoff : Date) (data : List Record) : List Record :=
  data.filter (fun r => Date.le cutoff (parseDate r.date))

/-- `cat_data = recent_data[recent_data['category'] == category]`. -/
def catRecords (l : List Record) (c : String) : List Record :=
  l.filter (fun r => r.category == c)

/-- Smallest month index occurring in `l` (0 for the empty list). -/
def minMonthIdx (l : List Record) : Int :=
  match l.map (fun r => monthIdx (parseDate r.date)) with
  | [] => 0
  | x :: xs => xs.foldl min x

/-- Largest month index occurring in `l` (0 for the empty list). -/
def maxMonthIdx (l : List Record) : Int :=
  match l.map (fun r => monthIdx (parseDate r.date)) with
  | [] => 0
  | x :: xs => xs.foldl max x

/-- Number of monthly buckets `resample('MS')` produces for `l`: the full
month span from the earliest to the latest record, months without records
included (they get a zero-filled row). -/
def nBuckets (l : List Record) : Nat :=
  if l.isEmpty then 0 else (maxMonthIdx l - minMonthIdx l + 1).toNat

/-- Total amount of `l` in the calendar month with index `idx` (one
resampled bucket value). -/
def bucketSum (l : List Record) (idx : Int) : Int :=
  ((l.filter (fun r => monthIdx (parseDate r.date) == idx)).map (fun r => r.amount)).sum

/-- The monthly bucket values of `l` in chronological order, exactly the
`monthly_totals.values` array of `detect_trends`. -/
def buckets (l : List Record) : List Int :=
  (List.range (nBuckets l)).map (fun i : Nat => bucketSum l (minMonthIdx l + (i : Int)))

/-- One entry of the `trends` dict. -/
structure TrendEntry where
  direction : String
  percent_change : ℚ
  current_average : ℚ
  previous_average : ℚ
deriving DecidableEq

/-- The entry `detect_trends` builds from a category's bucket series:
`values[0]` is the earliest month's bucket and `values[-1]` the latest
month's bucket (the code's division guard is `values[0] > 0`). -/
def trendEntry (l : List Record) : TrendEntry :=
  ⟨if bucketSum l (minMonthIdx l) < bucketSum l (maxMonthIdx l)
      then "increasing" else "decreasing",
   if 0 < bucketSum l (minMonthIdx l) then
     ((bucketSum l (maxMonthIdx l) : ℚ) - (bucketSum l (minMonthIdx l) : ℚ)) /
       (bucketSum l (minMonthIdx l) : ℚ) * 100
   else 0,
   (bucketSum l (maxMonthIdx l) : ℚ),
   (bucketSum l (minMonthIdx l) : ℚ)⟩

/-- Per-category body of the `detect_trends` loop: skip with fewer than 2
records, then skip with fewer than 2 monthly buckets, else report. -/
def trendFor (recent : List Record) (c : String) : Option TrendEntry :=
  if (catRecords recent c).length < 2 then none
  else if 2 ≤ nBuckets (catRecords recent c) then some (trendEntry (catRecords recent c))
  else none

/-- `Analytics.detect_trends` (cutoff explicit): `none` models the two early
status-only returns (fewer than 2 records overall / no data in the window),
`some` the `{'trends': ...}` result keyed by configured category. -/
def detect_trends (cutoff : Date) (data : List Record) :
    Option (List (String × TrendEntry)) :=
  if data.length < 2 then none
  else if (recentRecords cutoff data).isEmpty then none
  else some (DEFAULT_CATEGORIES.filterMap
    (fun c => (trendFor (recentRecords cutoff data) c).map (fun e => (c, e))))

/-- The association list of reported trends (empty for the status-only
results, which report no category at all). -/
def trendsOf : Option (List (String × TrendEntry)) → List (String × TrendEntry)
  | none => []
  | some ts => ts

/-- The trend entry as the CLAIM states it: percentage `(last-first)/first *
100` with `0` when the first bucket is `0` (spec side; coincides with the
code's `trendEntry` whenever the first bucket is nonnegative). -/
def specTrendEntry (l : List Record) : TrendEntry :=
  ⟨if bucketSum l (minMonthIdx l) < bucketSum l (maxMonthIdx l)
      then "increasing" else "decreasing",
   if bucketSum l (minMonthIdx l) = 0 then 0
   else ((bucketSum l (maxMonthIdx l) : ℚ) - (bucketSum l (minMonthIdx l) : ℚ)) /
       (bucketSum l (minMonthIdx l) : ℚ) * 100,
   (bucketSum l (maxMonthIdx l) : ℚ),
   (bucketSum l (minMonthIdx l) : ℚ)⟩

theorem foldl_min_le_self (l : List Int) (a : Int) : l.foldl min a ≤ a := by
  induction l generalizing a with
  | nil => exact le_refl a
  | cons x xs ih => exact le_trans (ih (min a x)) (min_le_left a x)

theorem minMonthIdx_le_maxMonthIdx (l : List Record) :
    minMonthIdx l ≤ maxMonthIdx l := by
  unfold minMonthIdx maxMonthIdx
  cases l with
  | nil => exact le_refl 0
  | cons r rs =>
      simp only [List.map_cons]
      exact le_trans (foldl_min_le_self _ _) (foldl_max_le_self _ _)

theorem nBuckets_le_one (l : List Record) (h : l.length ≤ 1) : nBuckets l ≤ 1 := by
  cases l with
  | nil => exact Nat.zero_le 1
  | cons r rs =>
      cases rs with
      | nil =>
          unfold nBuckets maxMonthIdx minMonthIdx
          simp
      | cons s ss => simp at h

theorem bucketSum_nonneg (l : List Record) (idx : Int)
    (hamt : ∀ r ∈ l, 0 ≤ r.amount) : 0 ≤ bucketSum l idx := by
  unfold bucketSum
  apply List.sum_nonneg
  intro x hx
  obtain ⟨r, hr, hxr⟩ := List.mem_map.mp hx
  exact hxr ▸ hamt r (List.mem_of_mem_filter hr)

theorem trendEntry_eq_spec (l : List Record)
    (h : 0 ≤ bucketSum l (minMonthIdx l)) : trendEntry l = specTrendEntry l := by
  have hpc : (if 0 < bucketSum l (minMonthIdx l) then
      ((bucketSum l (maxMonthIdx l) : ℚ) - (bucketSum l (minMonthIdx l) : ℚ)) /
        (bucketSum l (minMonthIdx l) : ℚ) * 100
    else 0) = (if bucketSum l (minMonthIdx l) = 0 then 0
    else ((bucketSum l (maxMonthIdx l) : ℚ) - (bucketSum l (minMonthIdx l) : ℚ)) /
        (bucketSum l (minMonthIdx l) : ℚ) * 100) := by
    rcases lt_or_eq_of_le h with hpos | hzero
    · rw [if_pos hpos, if_neg (by omega)]
    · rw [if_neg (by omega), if_pos hzero.symm]
  unfold trendEntry specTrendEntry
  rw [hpc]

theorem lookup_filterMap_keyed {β : Type} (L : List String) (f : String → Option β)
    (c : String) (hnd : L.Nodup) :
    (L.filterMap (fun x => (f x).map (fun b => (x, b)))).lookup c =
      if c ∈ L then f c else none := by
  induction L with
  | nil => simp
  | cons x L ih =>
      obtain ⟨hx, hnd'⟩ := List.nodup_cons.mp hnd
      by_cases hcx : c = x
      · subst hcx
        cases hfx : f c with
        | none =>
            simp only [List.filterMap_cons, hfx, Option.map_none']
            rw [ih hnd', if_neg hx]
            simp [hfx]
        | some b =>
            simp only [List.filterMap_cons, hfx, Option.map_some']
            rw [if_pos (List.mem_cons_self c L)]
            simp [List.lookup]
      · have hne : (c == x) = false := beq_eq_false_iff_ne.mpr hcx
        have hiff : ∀ z : Option β, (if c ∈ L then z else none) =
            (if c ∈ x :: L then z else none) := by
          intro z
          by_cases hcl : c ∈ L
          · rw [if_pos hcl, if_pos (List.mem_cons_of_mem x hcl)]
          · rw [if_neg hcl, if_neg (fun hm => by
              rcases List.mem_cons.mp hm with h | h
              · exact absurd h hcx
              · exact absurd h hcl)]
        cases hfx : f x with
        | none =>
            simp only [List.filterMap_cons, hfx, Option.map_none']
            rw [ih hnd', hiff (f c)]
        | some b =>
            simp only [List.filterMap_cons, hfx, Option.map_some']
            have hstep : ((x, b) ::
                (L.filterMap (fun y => (f y).map (fun e => (y, e))))).lookup c =
                (L.filterMap (fun y => (f y).map (fun e => (y, e)))).lookup c := by
              simp [List.lookup, hne]
            rw [hstep, ih hnd', hiff (f c)]

theorem buckets_head (l : List Record) (h : 1 ≤ nBuckets l) :
    (buckets l).head? = some (bucketSum l (minMonthIdx l)) := by
  unfold buckets
  obtain ⟨k, hk⟩ : ∃ k, nBuckets l = k + 1 := ⟨nBuckets l - 1, by omega⟩
  rw [hk, List.range_succ_eq_map]
  simp

theorem buckets_getLast (l : List Record) (h : 1 ≤ nBuckets l)
    (hne : l.isEmpty = false) :
    (buckets l).getLast? = some (bucketSum l (maxMonthIdx l)) := by
  unfold buckets
  obtain ⟨k, hk⟩ : ∃ k, nBuckets l = k + 1 := ⟨nBuckets l - 1, by omega⟩
  have hmax : minMonthIdx l + k = maxMonthIdx l := by
    have hle := minMonthIdx_le_maxMonthIdx l
    unfold nBuckets at hk
    rw [hne] at hk
    simp only [Bool.false_eq_true, if_false] at hk
    omega
  rw [hk, List.range_succ, List.map_append]
  simp only [List.map_cons, List.map_nil, List.getLast?_concat]
  rw [hmax]

/-- C4: a category with fewer than 2 monthly buckets in the window is absent
from the trend report; a category with at least 2 buckets is reported with
`direction = increasing iff last bucket > first bucket`, `percent_change =
(last-first)/first*100` (0 when the first bucket is 0), `current_average =
last bucket`, `previous_average = first bucket`, where first/last are
the first and last entries of the monthly bucket list. -/
theorem detect_trends_C4 (cutoff : Date) (data : List Record)
    (hcat : ∀ r ∈ data, r.category ∈ DEFAULT_CATEGORIES)
    (hamt : ∀ r ∈ data, 0 ≤ r.amount) (c : String) :
    (nBuckets (catRecords (recentRecords cutoff data) c) < 2 →
      (trendsOf (detect_trends cutoff data)).lookup c = none) ∧
    (2 ≤ nBuckets (catRecords (recentRecords cutoff data) c) →
      ((trendsOf (detect_trends cutoff data)).lookup c =
        some (specTrendEntry (catRecords (recentRecords cutoff data) c)) ∧
      (buckets (catRecords (recentRecords cutoff data) c)).head? =
        some (bucketSum (catRecords (recentRecords cutoff data) c)
          (minMonthIdx (catRecords (recentRecords cutoff data) c))) ∧
      (buckets (catRecords (recentRecords cutoff data) c)).getLast? =
        some (bucketSum (catRecords (recentRecords cutoff data) c)
          (maxMonthIdx (catRecords (recentRecords cutoff data) c))))) := by
  constructor
  · intro hlt
    unfold detect_trends
    by_cases h1 : data.length < 2
    · rw [if_pos h1]
      rfl
    · rw [if_neg h1]
      by_cases h2 : (recentRecords cutoff data).isEmpty
      · rw [if_pos h2]
        rfl
      · rw [if_neg h2]
        simp only [trendsOf]
        rw [lookup_filterMap_keyed DEFAULT_CATEGORIES
          (trendFor (recentRecords cutoff data)) c (by decide)]
        by_cases hc : c ∈ DEFAULT_CATEGORIES
        · rw [if_pos hc]
          unfold trendFor
          by_cases hlen : (catRecords (recentRecords cutoff data) c).length < 2
          · rw [if_pos hlen]
          · rw [if_neg hlen, if_neg (by omega)]
        · rw [if_neg hc]
  · intro hge
    have hcd2 : 2 ≤ (catRecords (recentRecords cutoff data) c).length := by
      by_contra hlt
      push_neg at hlt
      have := nBuckets_le_one (catRecords (recentRecords cutoff data) c) (by omega)
      omega
    have hcdne : catRecords (recentRecords cutoff data) c ≠ [] := by
      intro hnil
      rw [hnil] at hcd2
      simp at hcd2
    obtain ⟨r, hr⟩ : ∃ r, r ∈ catRecords (recentRecords cutoff data) c := by
      cases hq : catRecords (recentRecords cutoff data) c with
      | nil => exact absurd hq hcdne
      | cons a t => exact ⟨a, hq ▸ List.mem_cons_self a t⟩
    have hr' : r ∈ (recentRecords cutoff data).filter (fun s => s.category == c) := hr
    have hrrec : r ∈ recentRecords cutoff data := List.mem_of_mem_filter hr'
    have hrdata : r ∈ data := List.mem_of_mem_filter hrrec
    have hrcat : r.category = c := by
      have hpm := List.mem_filter.mp hr'
      exact eq_of_beq hpm.2
    have hcmem : c ∈ DEFAULT_CATEGORIES := hrcat ▸ hcat r hrdata
    have hdlen : ¬ data.length < 2 := by
      push_neg
      have h1 := List.length_filter_le (fun r => r.category == c) (recentRecords cutoff data)
      have h2 := List.length_filter_le
        (fun r => Date.le cutoff (parseDate r.date)) data
      unfold catRecords at hcd2
      unfold recentRecords at hcd2 h1
      omega
    have hrecne : ¬ (recentRecords cutoff data).isEmpty := by
      intro hie
      rw [List.isEmpty_iff.mp hie] at hrrec
      exact absurd hrrec (List.not_mem_nil r)
    have hcdempty : (catRecords (recentRecords cutoff data) c).isEmpty = false := by
      cases hq : (catRecords (recentRecords cutoff data) c).isEmpty
      · rfl
      · exact absurd (List.isEmpty_iff.mp hq) hcdne
    refine ⟨?_, buckets_head _ (by omega), buckets_getLast _ (by omega) hcdempty⟩
    unfold detect_trends
    rw [if_neg hdlen, if_neg hrecne]
    simp only [trendsOf]
    rw [lookup_filterMap_keyed DEFAULT_CATEGORIES
      (trendFor (recentRecords cutoff data)) c (by decide)]
    rw [if_pos hcmem]
    unfold trendFor
    rw [if_neg (by omega), if_pos hge]
    have hspec : trendEntry (catRecords (recentRecords cutoff data) c) =
        specTrendEntry (catRecords (recentRecords cutoff data) c) := by
      apply trendEntry_eq_spec
      apply bucketSum_nonneg
      intro s hs
      have hs' : s ∈ (recentRecords cutoff data).filter (fun t => t.category == c) := hs
      have hs2 : s ∈ recentRecords cutoff data := List.mem_of_mem_filter hs'
      have hs3 : s ∈ data.filter (fun t => Date.le cutoff (parseDate t.date)) := hs2
      exact hamt s (List.mem_of_mem_filter hs3)
    rw [hspec]

/-- Store of the C4 witness: Food spans two months inside the window. -/
def demoStoreC4 : List Record :=
  [⟨1, 100, "Food", "2024-01-10", "", some "ali"⟩,
   ⟨2, 300, "Food", "2024-02-05", "", some "ali"⟩,
   ⟨3, 50, "Transport", "2024-02-06", "", some "ali"⟩]

theorem detect_trends_C4_witness :
    (∀ r ∈ demoStoreC4, r.category ∈ DEFAULT_CATEGORIES) ∧
    (∀ r ∈ demoStoreC4, 0 ≤ r.amount) ∧
    2 ≤ nBuckets (catRecords (recentRecords ⟨2023, 12, 31⟩ demoStoreC4) "Food") ∧
    ((trendsOf (detect_trends ⟨2023, 12, 31⟩ demoStoreC4)).lookup "Food" =
        some (specTrendEntry (catRecords (recentRecords ⟨2023, 12, 31⟩ demoStoreC4) "Food")) ∧
      (buckets (catRecords (recentRecords ⟨2023, 12, 31⟩ demoStoreC4) "Food")).head? =
        some (bucketSum (catRecords (recentRecords ⟨2023, 12, 31⟩ demoStoreC4) "Food")
          (minMonthIdx (catRecords (recentRecords ⟨2023, 12, 31⟩ demoStoreC4) "Food"))) ∧
      (buckets (catRecords (recentRecords ⟨2023, 12, 31⟩ demoStoreC4) "Food")).getLast? =
        some (bucketSum (catRecords (recentRecords ⟨2023, 12, 31⟩ demoStoreC4) "Food")
          (maxMonthIdx (catRecords (recentRecords ⟨2023, 12, 31⟩ demoStoreC4) "Food")))) :=
  ⟨by decide, by decide, by decide,
    (detect_trends_C4 ⟨2023, 12, 31⟩ demoStoreC4 (by decide) (by decide) "Food").2 (by decide)⟩

/-! ### Claim C5: AnomalyDetector.detect_anomalies (ml_models/models.py) -/

/-- One entry of the anomalies list.  Instead of the float z-score the entry
carries the two exact quantities that determine it: `dev = amount - mean` and
`variance` (population variance) of the record's category; the z-score of the
source is `dev / sqrt variance` when the variance is positive and `0`
otherwise.  The formatted `date`, `note`, the truncated `deviation` and the
`reason` string of the source entry are not modelled. -/
structure Anomaly where
  id : Int
  category : String
  amount : Int
  dev : ℚ
  variance : ℚ
deriving DecidableEq

/-- Square of the z-score (`dev^2 / variance`, and `0` when the variance is
0, mirroring the source's `if std > 0 else 0` guard).  Every flagged record
has `dev > 0` (proved in the C5 theorem), so its z-score is nonnegative and
comparing z-scores is exactly comparing their squares: the source's
sort-by-z-descending is sort-by-`zkey`-descending. -/
def zkey (a : Anomaly) : ℚ :=
  if 0 < a.variance then a.dev ^ 2 / a.variance else 0

/-- Amounts of one category over the full store (`cat_data['amount']`). -/
def catAmounts (data : List Record) (c : String) : List Int :=
  (data.filter (fun r => r.category == c)).map (fun r => r.amount)

/-- `np.mean(amounts)`. -/
def catMean (data : List Record) (c : String) : ℚ :=
  ((catAmounts data c).sum : ℚ) / ((catAmounts data c).length : ℚ)

/-- `np.std(amounts)` squared: the population variance (ddof = 0). -/
def catVar (data : List Record) (c : String) : ℚ :=
  (((catAmounts data c).map (fun a => ((a : ℚ) - catMean data c) ^ 2)).sum) /
    ((catAmounts data c).length : ℚ)

/-- `amount > mean + ANOMALY_THRESHOLD_SIGMA * std` rendered without square
roots: with `d = amount - mean` and `std = sqrt variance ≥ 0`, the threshold
test is equivalent to `0 < d ∧ sigma^2 * variance < d^2` (proved against the
real-number reading in `isOutlier_iff_real`). -/
def isOutlier (mean variance : ℚ) (amount : Int) : Bool :=
  decide (0 < (amount : ℚ) - mean) &&
  decide (ANOMALY_THRESHOLD_SIGMA ^ 2 * variance < ((amount : ℚ) - mean) ^ 2)

/-- `isOutlier` agrees with the source's threshold test
`amount > mean + sigma * sqrt variance` over the reals. -/
theorem isOutlier_iff_real (mean variance : ℚ) (amount : Int)
    (hvar : 0 ≤ variance) :
    isOutlier mean variance amount = true ↔
      (mean : ℝ) + (ANOMALY_THRESHOLD_SIGMA : ℝ) * Real.sqrt (variance : ℝ) <
        ((amount : Int) : ℝ) := by
  unfold isOutlier ANOMALY_THRESHOLD_SIGMA
  simp only [Bool.and_eq_true, decide_eq_true_eq]
  have hvr : (0 : ℝ) ≤ (variance : ℝ) := by exact_mod_cast hvar
  have hsq : Real.sqrt (variance : ℝ) ^ 2 = (variance : ℝ) := Real.sq_sqrt hvr
  have hsnn : 0 ≤ Real.sqrt (variance : ℝ) := Real.sqrt_nonneg _
  constructor
  · rintro ⟨hpos, hlt⟩
    have hpos' : (0 : ℝ) < ((amount : Int) : ℝ) - (mean : ℝ) := by exact_mod_cast hpos
    have hlt' : ((2 : ℚ) : ℝ) ^ 2 * (variance : ℝ) <
        (((amount : Int) : ℝ) - (mean : ℝ)) ^ 2 := by exact_mod_cast hlt
    nlinarith [hsq, hsnn, sq_nonneg (((amount : Int) : ℝ) - (mean : ℝ) -
      ((2 : ℚ) : ℝ) * Real.sqrt (variance : ℝ))]
  · intro h
    have h2q : ((2 : ℚ) : ℝ) = (2 : ℝ) := by norm_num
    have hlt2 : (2 : ℝ) * Real.sqrt (variance : ℝ) <
        ((amount : Int) : ℝ) - (mean : ℝ) := by
      rw [h2q] at h
      linarith
    have hnn : (0 : ℝ) ≤ (2 : ℝ) * Real.sqrt (variance : ℝ) := by positivity
    constructor
    · have hda : (0 : ℝ) < ((amount : Int) : ℝ) - (mean : ℝ) := lt_of_le_of_lt hnn hlt2
      exact_mod_cast hda
    · have hsq2 : ((2 : ℝ) * Real.sqrt (variance : ℝ)) ^ 2 <
          (((amount : Int) : ℝ) - (mean : ℝ)) ^ 2 := by
        have hm := mul_self_lt_mul_self hnn hlt2
        calc ((2 : ℝ) * Real.sqrt (variance : ℝ)) ^ 2
            = ((2 : ℝ) * Real.sqrt (variance : ℝ)) * ((2 : ℝ) * Real.sqrt (variance : ℝ)) := by
              ring
          _ < (((amount : Int) : ℝ) - (mean : ℝ)) * (((amount : Int) : ℝ) - (mean : ℝ)) := hm
          _ = (((amount : Int) : ℝ) - (mean : ℝ)) ^ 2 := by ring
      have hfin : ((2 : ℚ) : ℝ) ^ 2 * (variance : ℝ) <
          (((amount : Int) : ℝ) - (mean : ℝ)) ^ 2 := by
        rw [h2q]
        nlinarith [hsq]
      exact_mod_cast hfin

/-- Per-category body of the `detect_anomalies` loop: categories with fewer
than 5 records contribute nothing, otherwise every record above the
threshold becomes an anomaly entry (in store order). -/
def catAnomalies (data : List Record) (c : String) : List Anomaly :=
  if (data.filter (fun r => r.category == c)).length < 5 then []
  else
    ((data.filter (fun r => r.category == c)).filter
        (fun r => isOutlier (catMean data c) (catVar data c) r.amount)).map
      (fun r => ⟨r.id, c, r.amount, (r.amount : ℚ) - catMean data c, catVar data c⟩)

/-- All categories' anomalies pooled in configured-category order. -/
def pooledAnomalies (data : List Record) : List Anomaly :=
  (DEFAULT_CATEGORIES.map (fun c => catAnomalies data c)).flatten

/-- `anomalies.sort(key=z_score, reverse=True)`: stable sort, descending by
z-score (equivalently by `zkey`, see there). -/
def sortByZ (l : List Anomaly) : List Anomaly :=
  l.mergeSort (fun a b => decide (zkey b ≤ zkey a))

/-- `AnomalyDetector.detect_anomalies`: `none` models the insufficient-data
result (store smaller than `MIN_DATA_POINTS_FOR_ML`), `some (list, total)`
the `anomalies[:10]` list plus the untruncated `total_anomalies_found`. -/
def detect_anomalies (data : List Record) : Option (List Anomaly × Nat) :=
  if data.length < MIN_DATA_POINTS_FOR_ML then none
  else some ((sortByZ (pooledAnomalies data)).take 10, (pooledAnomalies data).length)

theorem zkey_eq_zero (a : Anomaly) (h : a.variance = 0) : zkey a = 0 := by
  unfold zkey
  rw [h]
  norm_num

/-- C5 (amended): no record of a category with fewer than 5 records is ever
flagged; a flagged entry's z-score is 0 whenever its category's variance
(hence standard deviation) is 0, and every flagged entry has positive
deviation (so z-scores are nonnegative and z-order is `zkey`-order); and
provided the store reaches the 20-record ML minimum — below which the code
returns an insufficient-data result with an empty list instead — the
returned list is the pooled anomalies of all configured categories, stably
sorted by z-score descending and truncated to at most 10 entries, while
`total_anomalies_found` is the untruncated count. -/
theorem detect_anomalies_C5 (data : List Record) :
    (∀ res, detect_anomalies data = some res →
      ∀ a ∈ res.1,
        5 ≤ (data.filter (fun r => r.category == a.category)).length ∧
        (a.variance = 0 → zkey a = 0) ∧ 0 < a.dev) ∧
    (MIN_DATA_POINTS_FOR_ML ≤ data.length →
      ∀ res, detect_anomalies data = some res →
        res.2 = (pooledAnomalies data).length ∧
        res.1.length ≤ 10 ∧
        ∃ S : List Anomaly, S.Perm (pooledAnomalies data) ∧
          S.Pairwise (fun a b => zkey b ≤ zkey a) ∧ res.1 = S.take 10) := by
  constructor
  · intro res hres a ha
    unfold detect_anomalies at hres
    split at hres
    · cases hres
    · simp only [Option.some.injEq] at hres
      subst hres
      have hsort : a ∈ sortByZ (pooledAnomalies data) := List.mem_of_mem_take ha
      have hpool : a ∈ pooledAnomalies data :=
        (List.mergeSort_perm (pooledAnomalies data) _).mem_iff.mp hsort
      unfold pooledAnomalies at hpool
      obtain ⟨l, hl, hal⟩ := List.mem_flatten.mp hpool
      obtain ⟨c, _, hlc⟩ := List.mem_map.mp hl
      rw [← hlc] at hal
      unfold catAnomalies at hal
      split at hal
      · cases hal
      · next h5 =>
          obtain ⟨r, hrf, hra⟩ := List.mem_map.mp hal
          have hout := (List.mem_filter.mp hrf).2
          simp only [isOutlier, Bool.and_eq_true, decide_eq_true_eq] at hout
          subst hra
          refine ⟨?_, zkey_eq_zero _, hout.1⟩
          show 5 ≤ (data.filter (fun s => s.category == c)).length
          omega
  · intro hlen res hres
    unfold detect_anomalies at hres
    rw [if_neg (by omega)] at hres
    simp only [Option.some.injEq] at hres
    subst hres
    refine ⟨rfl, ?_, sortByZ (pooledAnomalies data),
      List.mergeSort_perm (pooledAnomalies data) _, ?_, rfl⟩
    · rw [List.length_take]
      exact min_le_left _ _
    · have hs := @List.sorted_mergeSort Anomaly
        (fun a b : Anomaly => decide (zkey b ≤ zkey a))
        (fun a b c hab hbc =>
          decide_eq_true (le_trans (of_decide_eq_true hbc) (of_decide_eq_true hab)))
        (fun a b => by
          rcases le_total (zkey b) (zkey a) with h | h
          · simp [decide_eq_true h]
          · simp [decide_eq_true h])
        (pooledAnomalies data)
      exact hs.imp (fun h => of_decide_eq_true h)

/-- 10-record store for the C5 counterexample: nine Food expenses of 100 and
one blatant outlier of 10000 (all records valid). -/
def demoStoreC5 : List Record :=
  [⟨1, 100, "Food", "2024-01-01", "", some "u"⟩,
   ⟨2, 100, "Food", "2024-01-02", "", some "u"⟩,
   ⟨3, 100, "Food", "2024-01-03", "", some "u"⟩,
   ⟨4, 100, "Food", "2024-01-04", "", some "u"⟩,
   ⟨5, 100, "Food", "2024-01-05", "", some "u"⟩,
   ⟨6, 100, "Food", "2024-01-06", "", some "u"⟩,
   ⟨7, 100, "Food", "2024-01-07", "", some "u"⟩,
   ⟨8, 100, "Food", "2024-01-08", "", some "u"⟩,
   ⟨9, 100, "Food", "2024-01-09", "", some "u"⟩,
   ⟨10, 10000, "Food", "2024-01-10", "", some "u"⟩]

theorem demoC5_mean : catMean demoStoreC5 "Food" = 1090 := by
  unfold catMean
  rw [show catAmounts demoStoreC5 "Food" =
    [100, 100, 100, 100, 100, 100, 100, 100, 100, (10000 : Int)] from by decide]
  rw [show List.sum [100, 100, 100, 100, 100, 100, 100, 100, 100, (10000 : Int)] =
    10900 from by decide]
  norm_num

theorem demoC5_var : catVar demoStoreC5 "Food" = 8820900 := by
  unfold catVar
  rw [show catAmounts demoStoreC5 "Food" =
    [100, 100, 100, 100, 100, 100, 100, 100, 100, (10000 : Int)] from by decide]
  rw [demoC5_mean]
  norm_num [List.sum_cons, List.sum_nil]

theorem demoC5_out100 : isOutlier 1090 8820900 100 = false := by
  unfold isOutlier
  rw [decide_eq_false (by norm_num : ¬ (0 : ℚ) < ((100 : Int) : ℚ) - 1090)]
  rw [Bool.false_and]

theorem demoC5_out10000 : isOutlier 1090 8820900 10000 = true := by
  unfold isOutlier ANOMALY_THRESHOLD_SIGMA
  rw [decide_eq_true (by norm_num : (0 : ℚ) < ((10000 : Int) : ℚ) - 1090)]
  rw [decide_eq_true (by norm_num :
    (2 : ℚ) ^ 2 * 8820900 < (((10000 : Int) : ℚ) - 1090) ^ 2)]
  rfl

theorem demoC5_food : catAnomalies demoStoreC5 "Food" =
    [⟨10, "Food", 10000, (10000 : ℚ) - 1090, 8820900⟩] := by
  unfold catAnomalies
  rw [if_neg (by decide)]
  rw [demoC5_mean, demoC5_var]
  rw [show demoStoreC5.filter (fun r => r.category == "Food") = demoStoreC5 from by decide]
  simp only [demoStoreC5, List.filter_cons, demoC5_out100, demoC5_out10000,
    Bool.false_eq_true, if_false, if_true, List.filter_nil, List.map_cons, List.map_nil]
  norm_num

/-- C5 counterexample: on a valid 10-record store containing an obvious Food
outlier, `detect_anomalies` returns the insufficient-data result (store below
the 20-record ML minimum) with NO anomaly list, although the pooled anomalies
of its categories are nonempty — so the returned list is not "the pooled
anomalies sorted and truncated" for every store, only for stores meeting the
minimum. -/
theorem detect_anomalies_C5_counterexample :
    demoStoreC5.length = 10 ∧
    detect_anomalies demoStoreC5 = none ∧
    pooledAnomalies demoStoreC5 =
      [⟨10, "Food", 10000, (10000 : ℚ) - 1090, 8820900⟩] := by
  refine ⟨by decide, ?_, ?_⟩
  · unfold detect_anomalies
    rw [if_pos (by decide)]
  · have hskip : ∀ c : String,
        (demoStoreC5.filter (fun r => r.category == c)).length < 5 →
        catAnomalies demoStoreC5 c = [] := by
      intro c h
      unfold catAnomalies
      rw [if_pos h]
    unfold pooledAnomalies DEFAULT_CATEGORIES
    simp only [List.map_cons, List.map_nil]
    rw [demoC5_food, hskip "Transport" (by decide), hskip "Health" (by decide),
      hskip "Education" (by decide), hskip "Housing" (by decide),
      hskip "Entertainment" (by decide), hskip "Savings" (by decide),
      hskip "Shopping" (by decide), hskip "Travel" (by decide),
      hskip "Gifts" (by decide), hskip "Utilities" (by decide),
      hskip "Insurance" (by decide), hskip "Other" (by decide)]
    simp

/-- 20-record store for the C5 witness (meets the ML minimum). -/
def demoStoreC5W : List Record :=
  (List.range 20).map (fun i =>
    ⟨(i : Int) + 1, 100, "Food", "2024-01-01", "", some "u"⟩)

theorem detect_anomalies_C5_witness :
    MIN_DATA_POINTS_FOR_ML ≤ demoStoreC5W.length ∧
    detect_anomalies demoStoreC5W =
      some ((sortByZ (pooledAnomalies demoStoreC5W)).take 10,
        (pooledAnomalies demoStoreC5W).length) ∧
    ((pooledAnomalies demoStoreC5W).length = (pooledAnomalies demoStoreC5W).length ∧
      ((sortByZ (pooledAnomalies demoStoreC5W)).take 10).length ≤ 10 ∧
      ∃ S : List Anomaly, S.Perm (pooledAnomalies demoStoreC5W) ∧
        S.Pairwise (fun a b => zkey b ≤ zkey a) ∧
        (sortByZ (pooledAnomalies demoStoreC5W)).take 10 = S.take 10) := by
  have hres : detect_anomalies demoStoreC5W =
      some ((sortByZ (pooledAnomalies demoStoreC5W)).take 10,
        (pooledAnomalies demoStoreC5W).length) := by
    unfold detect_anomalies
    rw [if_neg (by decide)]
  exact ⟨by decide, hres, (detect_anomalies_C5 demoStoreC5W).2 (by decide) _ hres⟩

/-! ### Claim C6: SpendingPredictor.predict_next_month (ml_models/models.py) -/

/-- Python's `int(...)` on an exact rational: truncation toward zero. -/
def ratTrunc (q : ℚ) : Int :=
  q.num.tdiv q.den

/-- Modelled fields of one prediction entry (`predicted_amount` and
`data_points`; the confidence/trend/historical-stats fields are not touched
by any claim). -/
structure Prediction where
  predicted_amount : Int
  data_points : Nat
deriving DecidableEq

/-- Value at `t` of the ordinary-least-squares line fitted to
`(0, ys[0]), ..., (n-1, ys[n-1])` — exactly what sklearn's
`LinearRegression().fit(X, y).predict([[t]])` computes.  For `n ≥ 2` the
denominator is positive; the degenerate branch (constant x, unreached here)
returns the mean. -/
def fitPredict (ys : List ℚ) (t : ℚ) : ℚ :=
  let n : ℚ := (ys.length : ℚ)
  let xs : List ℚ := (List.range ys.length).map (fun i => (i : ℚ))
  let sx := xs.sum
  let sy := ys.sum
  let sxx := (xs.map (fun x => x * x)).sum
  let sxy := ((xs.zip ys).map (fun p => p.1 * p.2)).sum
  if n * sxx - sx * sx = 0 then sy / n
  else
    ((sy - ((n * sxy - sx * sy) / (n * sxx - sx * sx)) * sx) / n) +
      ((n * sxy - sx * sy) / (n * sxx - sx * sx)) * t

/-- Per-category body of the `predict_next_month` loop: skip with fewer than
3 records in the window, skip with fewer than 2 monthly buckets, else
predict at index `len(monthly)` with `int(...)` truncation and the
`max(0, ...)` floor. -/
def predFor (hist : List Record) (c : String) : Option Prediction :=
  if (catRecords hist c).length < 3 then none
  else if nBuckets (catRecords hist c) < 2 then none
  else some ⟨max 0 (ratTrunc (fitPredict
      ((buckets (catRecords hist c)).map (fun a => (a : ℚ)))
      ((nBuckets (catRecords hist c) : Nat) : ℚ))),
    nBuckets (catRecords hist c)⟩

/-- `SpendingPredictor.predict_next_month` (window cutoff explicit): `none`
models the insufficient-data early return, `some` the `predictions` dict in
configured-category order. -/
def predict_next_month (cutoff : Date) (data : List Record) :
    Option (List (String × Prediction)) :=
  if data.length < MIN_DATA_POINTS_FOR_ML then none
  else some (DEFAULT_CATEGORIES.filterMap
    (fun c => (predFor (recentRecords cutoff data) c).map (fun p => (c, p))))

/-- The prediction entries (empty for the insufficient-data result). -/
def predsOf : Option (List (String × Prediction)) → List (String × Prediction)
  | none => []
  | some ps => ps

/-- C6 (amended): with the store at the 20-record ML minimum, a configured
category receives a forecast exactly when it has at least 3 records in the
trailing window AND at least 2 monthly buckets (the source gate is 3
records + 2 buckets, not 3 buckets); categories failing either test are
silently absent from the report; and every reported prediction equals the
OLS fit evaluated at `index = bucketCount`, truncated to int and floored at
zero — in particular it is never negative. -/
theorem predict_next_month_C6 (cutoff : Date) (data : List Record)
    (hlen : MIN_DATA_POINTS_FOR_ML ≤ data.length) (c : String) :
    ((catRecords (recentRecords cutoff data) c).length < 3 ∨
        nBuckets (catRecords (recentRecords cutoff data) c) < 2 ∨
        c ∉ DEFAULT_CATEGORIES →
      (predsOf (predict_next_month cutoff data)).lookup c = none) ∧
    (c ∈ DEFAULT_CATEGORIES →
      3 ≤ (catRecords (recentRecords cutoff data) c).length →
      2 ≤ nBuckets (catRecords (recentRecords cutoff data) c) →
      (predsOf (predict_next_month cutoff data)).lookup c =
        some ⟨max 0 (ratTrunc (fitPredict
            ((buckets (catRecords (recentRecords cutoff data) c)).map (fun a => (a : ℚ)))
            ((nBuckets (catRecords (recentRecords cutoff data) c) : Nat) : ℚ))),
          nBuckets (catRecords (recentRecords cutoff data) c)⟩) ∧
    (∀ p ∈ predsOf (predict_next_month cutoff data), 0 ≤ p.2.predicted_amount) := by
  refine ⟨?_, ?_, ?_⟩
  · intro hskip
    unfold predict_next_month
    rw [if_neg (by omega)]
    simp only [predsOf]
    rw [lookup_filterMap_keyed DEFAULT_CATEGORIES
      (predFor (recentRecords cutoff data)) c (by decide)]
    by_cases hc : c ∈ DEFAULT_CATEGORIES
    · rw [if_pos hc]
      unfold predFor
      rcases hskip with h | h | h
      · rw [if_pos h]
      · by_cases h3 : (catRecords (recentRecords cutoff data) c).length < 3
        · rw [if_pos h3]
        · rw [if_neg h3, if_pos h]
      · exact absurd hc h
    · rw [if_neg hc]
  · intro hc h3 hb
    unfold predict_next_month
    rw [if_neg (by omega)]
    simp only [predsOf]
    rw [lookup_filterMap_keyed DEFAULT_CATEGORIES
      (predFor (recentRecords cutoff data)) c (by decide)]
    rw [if_pos hc]
    unfold predFor
    rw [if_neg (by omega), if_neg (by omega)]
  · intro p hp
    unfold predict_next_month at hp
    rw [if_neg (by omega)] at hp
    simp only [predsOf] at hp
    obtain ⟨c', hc', heq⟩ := List.mem_filterMap.mp hp
    cases hpf : predFor (recentRecords cutoff data) c' with
    | none => rw [hpf] at heq; cases heq
    | some pr =>
        rw [hpf] at heq
        simp only [Option.map_some', Option.some.injEq] at heq
        subst heq
        unfold predFor at hpf
        split at hpf
        · cases hpf
        · split at hpf
          · cases hpf
          · simp only [Option.some.injEq] at hpf
            subst hpf
            exact le_max_left 0 _

/-- 20-record store for C6: Food has exactly 3 records spanning exactly 2
monthly buckets (May and June 2024); the other 17 records are single-month
Other expenses. -/
def demoStoreC6 : List Record :=
  [⟨1, 100, "Food", "2024-05-01", "", some "u"⟩,
   ⟨2, 100, "Food", "2024-05-02", "", some "u"⟩,
   ⟨3, 100, "Food", "2024-06-01", "", some "u"⟩] ++
  (List.range 17).map (fun i =>
    ⟨(i : Int) + 4, 50, "Other", "2024-05-03", "", some "u"⟩)

theorem predict_next_month_C6_witness :
    MIN_DATA_POINTS_FOR_ML ≤ demoStoreC6.length ∧
    "Food" ∈ DEFAULT_CATEGORIES ∧
    3 ≤ (catRecords (recentRecords ⟨2024, 1, 1⟩ demoStoreC6) "Food").length ∧
    2 ≤ nBuckets (catRecords (recentRecords ⟨2024, 1, 1⟩ demoStoreC6) "Food") ∧
    (predsOf (predict_next_month ⟨2024, 1, 1⟩ demoStoreC6)).lookup "Food" =
      some ⟨max 0 (ratTrunc (fitPredict
          ((buckets (catRecords (recentRecords ⟨2024, 1, 1⟩ demoStoreC6) "Food")).map
            (fun a => (a : ℚ)))
          ((nBuckets (catRecords (recentRecords ⟨2024, 1, 1⟩ demoStoreC6) "Food") : Nat) : ℚ))),
        nBuckets (catRecords (recentRecords ⟨2024, 1, 1⟩ demoStoreC6) "Food")⟩ :=
  ⟨by decide, by decide, by decide, by decide,
    (predict_next_month_C6 ⟨2024, 1, 1⟩ demoStoreC6 (by decide) "Food").2.1
      (by decide) (by decide) (by decide)⟩

theorem demoC6_buckets :
    buckets (catRecords (recentRecords ⟨2024, 1, 1⟩ demoStoreC6) "Food") = [200, 100] := by
  decide

theorem demoC6_fit : fitPredict [(200 : ℚ), 100] 2 = 0 := by
  unfold fitPredict
  rw [show List.range (List.length [(200 : ℚ), 100]) = [0, 1] from by decide]
  norm_num [List.zip_cons_cons, List.zip_nil_right, List.sum_cons, List.sum_nil]

/-- C6 counterexample: in a valid 20-record store whose Food history has
only 2 monthly buckets (3 records in May/June 2024), `predict_next_month`
DOES report a Food forecast — the source requires 3 records and 2 buckets,
not the claimed 3 monthly buckets, so a 2-bucket category does not "appear
nowhere in the report". -/
theorem predict_next_month_C6_counterexample :
    MIN_DATA_POINTS_FOR_ML ≤ demoStoreC6.length ∧
    nBuckets (catRecords (recentRecords ⟨2024, 1, 1⟩ demoStoreC6) "Food") = 2 ∧
    (predsOf (predict_next_month ⟨2024, 1, 1⟩ demoStoreC6)).lookup "Food" =
      some ⟨0, 2⟩ := by
  refine ⟨by decide, by decide, ?_⟩
  unfold predict_next_month
  rw [if_neg (by decide)]
  simp only [predsOf]
  rw [lookup_filterMap_keyed DEFAULT_CATEGORIES
    (predFor (recentRecords ⟨2024, 1, 1⟩ demoStoreC6)) "Food" (by decide)]
  rw [if_pos (by decide)]
  unfold predFor
  rw [if_neg (by decide), if_neg (by decide)]
  rw [demoC6_buckets,
    show nBuckets (catRecords (recentRecords ⟨2024, 1, 1⟩ demoStoreC6) "Food") = 2 from by decide]
  rw [show (([200, 100] : List Int).map (fun a => (a : ℚ))) = [(200 : ℚ), 100] from by norm_num]
  rw [show (((2 : Nat) : ℚ)) = (2 : ℚ) from by norm_num]
  rw [demoC6_fit]
  rw [show ratTrunc 0 = 0 from rfl]
  rfl

/-! ### Claim C7: CategoryClassifier.train_classifier / predict_category -/

/-- The Python exception classes relevant to `predict_category`. -/
inductive PyError
  | fileNotFoundError
  | valueError
  | attributeError
  | typeError
deriving DecidableEq

/-- Membership in the exception tuple of `predict_category`'s handler:
`except (ValueError, AttributeError, TypeError)` — `FileNotFoundError` is
not in it. -/
def predictExceptCatches : PyError → Bool
  | .valueError => true
  | .attributeError => true
  | .typeError => true
  | .fileNotFoundError => false

/-- The persisted classifier artifact (vectorizer + model pair), abstracted
as the `(note, category)` training set it was fitted on; the claims depend
only on its presence or absence. -/
def Artifact : Type :=
  List (String × String)

/-- `CategoryClassifier.train_classifier` relative to the current artifact
store: filter to records with non-empty notes (`df['note'].notna() &
(df['note'] != '')`); below `MIN_NOTES_FOR_TRAINING` fail with a message
naming the minimum and write nothing; otherwise fit and overwrite the
artifact (the sklearn fit itself is abstracted into the stored pair list).
Returns `((ok, message), artifact after the call)`. -/
def train_classifier (data : List Record) (artifact : Option Artifact) :
    (Bool × String) × Option Artifact :=
  if (data.filter (fun r => decide (r.note ≠ ""))).length < MIN_NOTES_FOR_TRAINING then
    ((false, "Need at least " ++ toString MIN_NOTES_FOR_TRAINING ++ " entries with notes"),
     artifact)
  else
    ((true, "Classifier trained on " ++
        toString (data.filter (fun r => decide (r.note ≠ ""))).length ++ " entries"),
     some ((data.filter (fun r => decide (r.note ≠ ""))).map (fun r => (r.note, r.category))))

/-- The `try` body of `predict_category`: with no artifact persisted, the
first `open(...)` raises `FileNotFoundError`; with an artifact, prediction
is the opaque sklearn computation `nbPredict` (label and max posterior). -/
def predictTryBody (nbPredict : Artifact → String → String × ℚ)
    (note : String) : Option Artifact → Except PyError (String × ℚ)
  | none => Except.error PyError.fileNotFoundError
  | some art => Except.ok (nbPredict art note)

/-- `CategoryClassifier.predict_category`: the `try` body wrapped in the
`except (ValueError, AttributeError, TypeError)` handler, whose branch
returns the not-trained default category `"Other"`.  `Except.ok (Sum.inl p)`
is a prediction, `Except.ok (Sum.inr d)` the handled not-trained default,
and `Except.error e` an exception that escapes to the caller (a crash). -/
def predict_category (nbPredict : Artifact → String → String × ℚ)
    (note : String) (artifact : Option Artifact) :
    Except PyError (Sum (String × ℚ) String) :=
  match predictTryBody nbPredict note artifact with
  | Except.ok r => Except.ok (Sum.inl r)
  | Except.error e =>
      if predictExceptCatches e then Except.ok (Sum.inr "Other")
      else Except.error e

/-- C7: training with fewer noted records than the configured minimum fails
with the message naming the minimum (50) and writes no artifact — that half
of the claim is right.  But a predict call with NO persisted artifact does
not return the default category: `open` raises `FileNotFoundError`, which
the handler tuple `(ValueError, AttributeError, TypeError)` does not catch,
so the exception escapes (a crash) — contradicting both the claim and the
handler's own "Model not trained yet" intent (code bug). -/
theorem classifier_C7 (nbPredict : Artifact → String → String × ℚ)
    (data : List Record) (artifact : Option Artifact) (note : String)
    (hfew : (data.filter (fun r => decide (r.note ≠ ""))).length <
      MIN_NOTES_FOR_TRAINING) :
    train_classifier data artifact =
      ((false, "Need at least " ++ toString MIN_NOTES_FOR_TRAINING ++
        " entries with notes"), artifact) ∧
    "Need at least " ++ toString MIN_NOTES_FOR_TRAINING ++ " entries with notes" =
      "Need at least 50 entries with notes" ∧
    predict_category nbPredict note none = Except.error PyError.fileNotFoundError ∧
    predictExceptCatches PyError.fileNotFoundError = false := by
  refine ⟨?_, by decide, rfl, rfl⟩
  unfold train_classifier
  rw [if_pos hfew]

/-- 10-record store whose records all carry a non-empty note (10 noted
records, below the minimum of 50). -/
def demoStoreC7 : List Record :=
  (List.range 10).map (fun i =>
    ⟨(i : Int) + 1, 100, "Food", "2024-01-01", "coffee", some "u"⟩)

theorem classifier_C7_witness :
    (demoStoreC7.filter (fun r => decide (r.note ≠ ""))).length <
      MIN_NOTES_FOR_TRAINING ∧
    (train_classifier demoStoreC7 none =
      ((false, "Need at least " ++ toString MIN_NOTES_FOR_TRAINING ++
        " entries with notes"), none) ∧
    "Need at least " ++ toString MIN_NOTES_FOR_TRAINING ++ " entries with notes" =
      "Need at least 50 entries with notes" ∧
    predict_category (fun _ _ => ("Other", 0)) "coffee" none =
      Except.error PyError.fileNotFoundError ∧
    predictExceptCatches PyError.fileNotFoundError = false) :=
  ⟨by decide, classifier_C7 (fun _ _ => ("Other", 0)) demoStoreC7 none "coffee" (by decide)⟩
